import Mathlib

/-
Verification development for the gravity-bounce simulator with bidirectional
time control (src/src/time_manager.py, src/src/physics.py,
src/src/physics/ball.py, src/src/physics_engine.py, and the archived
src/archive/desktop-version/src/simulation/physics_simulation.py).

Numbers are modelled as exact rationals (ℚ); Python lists and bounded deques
are modelled as Lean lists, with deque-with-maxlen append made explicit.
-/

/-- Gravity constant, named GRAVITY in config/constants.py (value 6000.0). -/
def GRAVITY : ℚ := 6000

/-- Bounce damping constant, BOUNCE_DAMPING in config/constants.py (value 0.8). -/
def BOUNCE_DAMPING : ℚ := 4 / 5

/-- Minimum bounce velocity, MIN_BOUNCE_VELOCITY in config/constants.py (value 50.0). -/
def MIN_BOUNCE_VELOCITY : ℚ := 50

/-- Frame rate, TARGET_FPS in config/constants.py (value 144). -/
def TARGET_FPS : ℚ := 144

/-- History capacity, MAX_HISTORY_FRAMES in config/constants.py (value 500). -/
def HISTORY_MAX_FRAMES : ℕ := 500

/-- PhysicsState from physics.py: the snapshot record stored in history. -/
structure PhysicsState where
  x : ℚ
  y : ℚ
  velocity_x : ℚ
  velocity_y : ℚ
  acceleration_x : ℚ
  acceleration_y : ℚ
deriving DecidableEq, Repr, Inhabited

/-- Ball from physics.py (screen coordinates: y grows downward, the ground
test is y + radius ≥ ground_y). Carries its PhysicsState plus constants. -/
structure Ball where
  state : PhysicsState
  radius : ℚ
  mass : ℚ
  gravity : ℚ
  bounce_damping : ℚ
deriving DecidableEq, Repr, Inhabited

/-- PhysicsObject.update from physics.py: semi-implicit Euler, velocity
updated before position on both axes. -/
def Ball.baseUpdate (b : Ball) (dt : ℚ) : Ball :=
  let s := b.state
  let vx := s.velocity_x + s.acceleration_x * dt
  let vy := s.velocity_y + s.acceleration_y * dt
  { b with state := { s with
      velocity_x := vx, velocity_y := vy,
      x := s.x + vx * dt, y := s.y + vy * dt } }

/-- Ball.check_ground_collision from physics.py: clamp onto the ground,
reflect and damp the velocity, snap small bounces to zero. -/
def Ball.check_ground_collision (b : Ball) (ground_y : ℚ) : Ball :=
  if b.state.y + b.radius ≥ ground_y then
    let v := -b.state.velocity_y * b.bounce_damping
    let v' := if |v| < MIN_BOUNCE_VELOCITY then 0 else v
    { b with state := { b.state with y := ground_y - b.radius, velocity_y := v' } }
  else b

/-- Ball.update from physics.py: rest test, gravity application
(apply_gravity), kinematic update, then ground collision. -/
def Ball.update (b : Ball) (dt ground_y : ℚ) : Ball :=
  let is_at_rest := b.state.velocity_y = 0 ∧ b.state.y + b.radius ≥ ground_y
  let b1 := { b with state := { b.state with
                acceleration_y := if is_at_rest then 0 else b.gravity } }
  (b1.baseUpdate dt).check_ground_collision ground_y

/-- PhysicsObject.set_state from physics.py: replace the whole state record. -/
def Ball.set_state (b : Ball) (s : PhysicsState) : Ball :=
  { b with state := s }

/-- Append to a deque constructed with maxlen cap (collections.deque): when
the deque is full the oldest element is evicted before the append. -/
def dequeAppend {α : Type} (cap : ℕ) (q : List α) (a : α) : List α :=
  if cap ≤ q.length then q.drop 1 ++ [a] else q ++ [a]

/-- TimeManager state from time_manager.py together with the Ball it is
handed by its caller (Python mutates the ball passed into each operation). -/
structure TMState where
  dt : ℚ
  capacity : ℕ
  simulation_time : ℚ
  is_playing : Bool
  auto_pause_after_step : Bool
  history : List PhysicsState
  time_history : List ℚ
  ball : Ball
deriving DecidableEq, Repr

/-- TimeManager.save_state: append the ball snapshot and the current time to
the two bounded deques. -/
def TMState.save_state (s : TMState) : TMState :=
  { s with
    history := dequeAppend s.capacity s.history s.ball.state,
    time_history := dequeAppend s.capacity s.time_history s.simulation_time }

/-- TimeManager.step_time: advance simulation_time by dt. -/
def TMState.step_time (s : TMState) : TMState :=
  { s with simulation_time := s.simulation_time + s.dt }

/-- TimeManager.pause: clear is_playing. -/
def TMState.pause (s : TMState) : TMState :=
  { s with is_playing := false }

/-- TimeManager.toggle_play_pause. -/
def TMState.toggle_play_pause (s : TMState) : TMState :=
  { s with is_playing := !s.is_playing }

/-- Auto-pause epilogue shared by every stepping operation:
if auto_pause_after_step: self.pause(). -/
def TMState.applyAutoPause (s : TMState) : TMState :=
  if s.auto_pause_after_step then s.pause else s

/-- TimeManager.reset: zero the clock, stop playback, clear both history
deques. Note that it takes no ball argument and leaves the Ball untouched. -/
def TMState.reset (s : TMState) : TMState :=
  { s with simulation_time := 0, is_playing := false,
           history := [], time_history := [] }

/-- Loop body of TimeManager.step_forward_frames: save state, update the
ball passing ball.state.y as the ground argument, advance time. -/
def TMState.tickFrames (s : TMState) : TMState :=
  let s1 := s.save_state
  (({ s1 with ball := s1.ball.update s1.dt s1.ball.state.y }) : TMState).step_time

/-- Loop body of TimeManager.step_forward_time (also of jump_to_time's
forward branch): save state, update the ball against ground_y, advance time. -/
def TMState.tickTime (ground_y : ℚ) (s : TMState) : TMState :=
  let s1 := s.save_state
  (({ s1 with ball := s1.ball.update s1.dt ground_y }) : TMState).step_time

/-- TimeManager.step_forward_frames: guard non-positive counts, run the
frame tick frame_count times, then the auto-pause epilogue. -/
def TMState.step_forward_frames (frame_count : ℤ) (s : TMState) : TMState :=
  if frame_count ≤ 0 then s
  else (TMState.tickFrames^[frame_count.toNat] s).applyAutoPause

/-- TimeManager.step_forward_time: guard non-positive amounts, compute
steps = int(time_amount / dt), run the timed tick that many times, then the
auto-pause epilogue. -/
def TMState.step_forward_time (time_amount ground_y : ℚ) (s : TMState) : TMState :=
  if time_amount ≤ 0 then s
  else ((TMState.tickTime ground_y)^[(⌊time_amount / s.dt⌋).toNat] s).applyAutoPause

/-- Loop body of the rewind pop loops: pop the last element of each deque,
guarded on both being non-empty. -/
def TMState.popBoth (s : TMState) : TMState :=
  if s.history ≠ [] ∧ s.time_history ≠ [] then
    { s with history := s.history.dropLast, time_history := s.time_history.dropLast }
  else s

/-- TimeManager.step_backward_frames: pop min(frame_count, len(history))
entries, then restore the ball and clock from the new tail, falling back to
reset() when history is exhausted. -/
def TMState.step_backward_frames (frame_count : ℤ) (s : TMState) : TMState :=
  if frame_count ≤ 0 then s
  else
    let k := min frame_count.toNat s.history.length
    let s1 := TMState.popBoth^[k] s
    match s1.history.getLast?, s1.time_history.getLast? with
    | some snap, some t =>
        ({ s1 with ball := s1.ball.set_state snap, simulation_time := t } : TMState).applyAutoPause
    | _, _ => s1.reset.applyAutoPause

/-- Linear scan of TimeManager.rewind_to_time: walk the time list with the
running index, keep (best_idx, best_diff), update only on a strictly
smaller distance. -/
def scanNearest (target : ℚ) : List ℚ → ℕ → ℕ × ℚ → ℕ × ℚ
  | [], _, acc => acc
  | t :: rest, i, (bi, bd) =>
      if |t - target| < bd then scanNearest target rest (i + 1) (i, |t - target|)
      else scanNearest target rest (i + 1) (bi, bd)

/-- Nearest-time lookup of TimeManager.rewind_to_time: best_idx starts at 0
with best_diff = |times[0] - target|, then the scan runs over the whole
list. Only meaningful for a non-empty list (the caller guards that). -/
def nearestIdx (times : List ℚ) (target : ℚ) : ℕ :=
  match times with
  | [] => 0
  | t0 :: _ => (scanNearest target times 0 (0, |t0 - target|)).1

/-- TimeManager.rewind_to_time: on empty history reset; otherwise find the
nearest stored time, drop everything after it, and restore ball and clock
from the new tail. -/
def TMState.rewind_to_time (target_time : ℚ) (s : TMState) : TMState :=
  if s.time_history = [] then s.reset
  else
    let best_idx := nearestIdx s.time_history target_time
    let frames_to_rewind := s.history.length - best_idx - 1
    let s1 := TMState.popBoth^[frames_to_rewind] s
    match s1.history.getLast?, s1.time_history.getLast? with
    | some snap, some t =>
        { s1 with ball := s1.ball.set_state snap, simulation_time := t }
    | _, _ => s1

/-- TimeManager.step_backward_time: guard non-positive amounts; compute
target = max(0, simulation_time - time_amount); reset at 0, otherwise
rewind; auto-pause epilogue. -/
def TMState.step_backward_time (time_amount : ℚ) (s : TMState) : TMState :=
  if time_amount ≤ 0 then s
  else
    let target := max 0 (s.simulation_time - time_amount)
    (if target = 0 then s.reset else s.rewind_to_time target).applyAutoPause

/-- TimeManager.jump_to_time: a negative target is refused outright (the
function returns before doing anything, auto-pause included); otherwise
rewind, step forward, or do nothing, then the auto-pause epilogue. -/
def TMState.jump_to_time (target_time ground_y : ℚ) (s : TMState) : TMState :=
  if target_time < 0 then s
  else if target_time < s.simulation_time then
    (if target_time = 0 then s.reset else s.rewind_to_time target_time).applyAutoPause
  else if target_time > s.simulation_time then
    (s.step_forward_time (target_time - s.simulation_time) ground_y).applyAutoPause
  else s.applyAutoPause

/-- TimeManager.can_rewind: true exactly when more than one entry is stored. -/
def TMState.can_rewind (s : TMState) : Bool :=
  s.history.length > 1

/-- Time-travel operations exposed by TimeManager (section 4.4 of the design). -/
inductive TMOp where
  | resetOp : TMOp
  | togglePlayPause : TMOp
  | stepForwardFrames (n : ℤ) : TMOp
  | stepForwardTime (q gy : ℚ) : TMOp
  | stepBackwardFrames (n : ℤ) : TMOp
  | stepBackwardTime (q : ℚ) : TMOp
  | rewindToTime (t : ℚ) : TMOp
  | jumpToTime (t gy : ℚ) : TMOp
deriving DecidableEq, Repr

/-- Dispatch of one TimeManager operation. -/
def execOp (op : TMOp) (s : TMState) : TMState :=
  match op with
  | .resetOp => s.reset
  | .togglePlayPause => s.toggle_play_pause
  | .stepForwardFrames n => s.step_forward_frames n
  | .stepForwardTime q gy => s.step_forward_time q gy
  | .stepBackwardFrames n => s.step_backward_frames n
  | .stepBackwardTime q => s.step_backward_time q
  | .rewindToTime t => s.rewind_to_time t
  | .jumpToTime t gy => s.jump_to_time t gy

/-- Execution of a sequence of TimeManager operations. -/
def execOps (ops : List TMOp) (s : TMState) : TMState :=
  ops.foldl (fun s op => execOp op s) s

/-- Construction invariant of the TimeManager: non-negative time step,
non-negative clock, and only non-negative times stored in history. -/
def TMInv (s : TMState) : Prop :=
  0 ≤ s.dt ∧ 0 ≤ s.simulation_time ∧ ∀ t ∈ s.time_history, 0 ≤ t

instance (s : TMState) : Decidable (TMInv s) := by
  unfold TMInv; infer_instance

/-- a History-buffer push of one (snapshot, time) pair: exactly the pair of
bounded-deque appends performed by TimeManager.save_state. -/
def pushEntry (cap : ℕ) (buf : List PhysicsState × List ℚ) (e : PhysicsState × ℚ) :
    List PhysicsState × List ℚ :=
  (dequeAppend cap buf.1 e.1, dequeAppend cap buf.2 e.2)

/-- Unified Ball from physics/ball.py: state and constants. The coordinate
system selects which update/collision variant below applies. -/
structure UBall where
  x : ℚ
  y : ℚ
  velocity_y : ℚ
  acceleration_y : ℚ
  radius : ℚ
  mass : ℚ
  gravity : ℚ
  bounce_damping : ℚ
  min_bounce_velocity : ℚ
deriving DecidableEq, Repr, Inhabited

/-- Ball.update from physics/ball.py, screen-coordinate branch: rest test
y + radius ≥ ground_y, gravity applied unless at rest, velocity before
position. -/
def UBall.updateScreen (b : UBall) (dt ground_y : ℚ) : UBall :=
  let is_at_rest := b.velocity_y = 0 ∧ b.y + b.radius ≥ ground_y
  let a := if is_at_rest then 0 else b.gravity
  let v := b.velocity_y + a * dt
  { b with acceleration_y := a, velocity_y := v, y := b.y + v * dt }

/-- Ball.update from physics/ball.py, physics-coordinate branch: rest test
y ≤ radius (ground at y = 0). -/
def UBall.updatePhysics (b : UBall) (dt : ℚ) : UBall :=
  let is_at_rest := b.velocity_y = 0 ∧ b.y ≤ b.radius
  let a := if is_at_rest then 0 else b.gravity
  let v := b.velocity_y + a * dt
  { b with acceleration_y := a, velocity_y := v, y := b.y + v * dt }

/-- Ball.check_ground_collision from physics/ball.py, screen branch. -/
def UBall.checkScreen (b : UBall) (ground_y : ℚ) : UBall :=
  if b.y + b.radius ≥ ground_y then
    let v := -b.velocity_y * b.bounce_damping
    let v' := if |v| < b.min_bounce_velocity then 0 else v
    { b with y := ground_y - b.radius, velocity_y := v' }
  else b

/-- Ball.check_ground_collision from physics/ball.py, physics branch. -/
def UBall.checkPhysics (b : UBall) : UBall :=
  if b.y ≤ b.radius then
    let v := -b.velocity_y * b.bounce_damping
    let v' := if |v| < b.min_bounce_velocity then 0 else v
    { b with y := b.radius, velocity_y := v' }
  else b

/-- One simulation tick on the unified ball in screen coordinates, as driven
by the archived PhysicsSimulation.update: update then collision check. -/
def UBall.tickScreen (dt ground_y : ℚ) (b : UBall) : UBall :=
  (b.updateScreen dt ground_y).checkScreen ground_y

/-- One simulation tick on the unified ball in physics coordinates. -/
def UBall.tickPhysics (dt : ℚ) (b : UBall) : UBall :=
  (b.updatePhysics dt).checkPhysics

/-- Coordinate translation between the two variants: a screen-coordinate
ball with ground at ground_y corresponds to the physics-coordinate ball at
height ground_y - y with mirrored velocity, acceleration and gravity sign. -/
def UBall.toPhysicsCoords (b : UBall) (ground_y : ℚ) : UBall :=
  { b with y := ground_y - b.y, velocity_y := -b.velocity_y,
           acceleration_y := -b.acceleration_y, gravity := -b.gravity }

/-- Ball from physics_engine.py, constructed with hardcoded physics-
coordinate constants (gravity -6000, damping 0.8, zero initial velocity and
acceleration). -/
def engineBallInit (x y : ℚ) : UBall :=
  { x := x, y := y, velocity_y := 0, acceleration_y := 0, radius := 20,
    mass := 1, gravity := -6000, bounce_damping := 4 / 5,
    min_bounce_velocity := 50 }

/-- PhysicsSimulation state from physics_engine.py (the fields reset()
touches, plus the construction parameters it reads). -/
structure EngState where
  width : ℕ
  height : ℕ
  ball : UBall
  simulation_time : ℚ
  is_playing : Bool
  history : List UBall
  time_history : List ℚ
deriving DecidableEq, Repr

/-- PhysicsSimulation.reset from physics_engine.py: zero the clock, stop
playback, recreate the ball at (width // 2, 400), clear history. -/
def EngState.reset (e : EngState) : EngState :=
  { e with simulation_time := 0, is_playing := false,
           ball := engineBallInit ((e.width / 2 : ℕ) : ℚ) 400,
           history := [], time_history := [] }

/-- Sample snapshot used as a concrete input in several witnesses. -/
def sampleSnapshot : PhysicsState :=
  { x := 400, y := 100, velocity_x := 0, velocity_y := 0,
    acceleration_x := 0, acceleration_y := 0 }

/-- Sample ball (physics.py Ball at (400, 100), default constants). -/
def sampleBall : Ball :=
  { state := sampleSnapshot, radius := 20, mass := 1,
    gravity := GRAVITY, bounce_damping := BOUNCE_DAMPING }

/-- Freshly constructed TimeManager at 144 fps with the sample ball. -/
def sampleTM : TMState :=
  { dt := 1/144, capacity := HISTORY_MAX_FRAMES, simulation_time := 0,
    is_playing := false, auto_pause_after_step := false,
    history := [], time_history := [], ball := sampleBall }

/-- TimeManager state after two forward frames from the fresh state. -/
def sampleForwardTM : TMState := TMState.step_forward_frames 2 sampleTM

/-- TimeManager state whose ball is moving (velocity 5) at time 1/2. -/
def movingTM : TMState :=
  { sampleTM with
    ball := { sampleBall with state := { sampleSnapshot with velocity_y := 5 } },
    simulation_time := 1/2 }

/-- Engine simulation state mid-flight, used to exercise EngState.reset. -/
def sampleEng : EngState :=
  { width := 800, height := 600,
    ball := { engineBallInit 400 400 with velocity_y := -100, y := 30 },
    simulation_time := 1/2, is_playing := true,
    history := [engineBallInit 400 400], time_history := [0] }

/-- C1 (amended): TimeManager.reset() sets simulationTime to 0, isPlaying to
false and clears the history, but leaves the Body untouched; the Body is
instead restored by PhysicsSimulation.reset (physics_engine.py), which
recreates it at the configured initial position (width // 2, 400) with zero
velocity and zero acceleration. -/
theorem c1_reset_amended (s : TMState) (e : EngState) :
    s.reset.simulation_time = 0 ∧ s.reset.is_playing = false ∧
    s.reset.history = [] ∧ s.reset.time_history = [] ∧ s.reset.ball = s.ball ∧
    e.reset.simulation_time = 0 ∧ e.reset.is_playing = false ∧
    e.reset.history = [] ∧ e.reset.time_history = [] ∧
    e.reset.ball.x = ((e.width / 2 : ℕ) : ℚ) ∧ e.reset.ball.y = 400 ∧
    e.reset.ball.velocity_y = 0 ∧ e.reset.ball.acceleration_y = 0 :=
  ⟨rfl, rfl, rfl, rfl, rfl, rfl, rfl, rfl, rfl, rfl, rfl, rfl, rfl⟩

/-- C1 (counterexample): on a TimeManager whose ball is moving,
TimeManager.reset() leaves the ball unchanged with a non-zero velocity, so
reset() does not restore the Body to its initial state. -/
theorem c1_reset_counterexample :
    movingTM.reset.ball = movingTM.ball ∧
    movingTM.reset.ball.state.velocity_y ≠ 0 := by
  refine ⟨rfl, ?_⟩
  norm_num [movingTM, TMState.reset, sampleTM, sampleBall, sampleSnapshot]

/-- C3 (code evaluated at the failing input): from a fresh TimeManager whose
stationary ball hangs at y = 100 far above the configured ground 550,
step_forward_frames(1) teleports the ball to y = 80 (it passes the ball's
own y as the ground, so the rest test fires and the collision clamp then
lifts the ball by its radius), while step_forward_time(dt) correctly lets
it fall to y = 100 + 125/432; the two per-tick transitions differ. -/
theorem c3_frames_ground_bug :
    (TMState.step_forward_frames 1 sampleTM).ball.state.y = 80 ∧
    (TMState.step_forward_time (1/144) 550 sampleTM).ball.state.y = 100 + 125/432 ∧
    (TMState.step_forward_frames 1 sampleTM).ball.state.y ≠
      (TMState.step_forward_time (1/144) 550 sampleTM).ball.state.y := by
  have hf : (TMState.step_forward_frames 1 sampleTM).ball.state.y = 80 := by
    norm_num [TMState.step_forward_frames, TMState.tickFrames, TMState.save_state,
      TMState.step_time, TMState.applyAutoPause, Ball.update, Ball.baseUpdate,
      Ball.check_ground_collision, sampleTM, sampleBall, sampleSnapshot, dequeAppend,
      GRAVITY, BOUNCE_DAMPING, MIN_BOUNCE_VELOCITY, HISTORY_MAX_FRAMES]
  have ht : (TMState.step_forward_time (1/144) 550 sampleTM).ball.state.y = 100 + 125/432 := by
    norm_num [TMState.step_forward_time, TMState.tickTime, TMState.save_state,
      TMState.step_time, TMState.applyAutoPause, Ball.update, Ball.baseUpdate,
      Ball.check_ground_collision, sampleTM, sampleBall, sampleSnapshot, dequeAppend,
      GRAVITY, BOUNCE_DAMPING, MIN_BOUNCE_VELOCITY, HISTORY_MAX_FRAMES]
  refine ⟨hf, ht, ?_⟩
  rw [hf, ht]
  norm_num

/-- C10: can_rewind() is true exactly when strictly more than one history
entry is stored; with exactly one stored snapshot it reports false even
though step_backward_frames(1) would still pop that entry and fall back to
a full reset(). -/
theorem c10_can_rewind (s s1 : TMState)
    (h1 : s1.history.length = 1) (h2 : s1.time_history.length = 1) :
    (s.can_rewind = true ↔ 1 < s.history.length) ∧
    s1.can_rewind = false ∧
    TMState.step_backward_frames 1 s1 = s1.reset := by
  obtain ⟨a, ha⟩ := List.length_eq_one.mp h1
  obtain ⟨b, hb⟩ := List.length_eq_one.mp h2
  refine ⟨by simp [TMState.can_rewind], by simp [TMState.can_rewind, h1], ?_⟩
  cases s1 with
  | mk dt cap st ip ap hist thist ball =>
    simp only at ha hb
    subst ha hb
    cases ap <;> rfl

/-- C10 (witness): concrete instantiation with a one-entry history. -/
theorem c10_can_rewind_witness :
    ((TMState.step_forward_frames 1 sampleTM).can_rewind = true ↔
      1 < (TMState.step_forward_frames 1 sampleTM).history.length) ∧
    (TMState.step_forward_frames 1 sampleTM).can_rewind = false ∧
    TMState.step_backward_frames 1 (TMState.step_forward_frames 1 sampleTM) =
      (TMState.step_forward_frames 1 sampleTM).reset :=
  c10_can_rewind (TMState.step_forward_frames 1 sampleTM)
    (TMState.step_forward_frames 1 sampleTM) (by decide) (by decide)

/-- Bounded-deque fold lemma: pushing a batch of entries into a deque of
maxlen cap keeps the last cap entries of the combined sequence. -/
lemma dequeAppend_foldl_drop {α : Type} (cap : ℕ) (hcap : 1 ≤ cap) :
    ∀ (l q : List α), q.length ≤ cap → cap ≤ q.length + l.length →
      l.foldl (dequeAppend cap) q = (q ++ l).drop (q.length + l.length - cap) := by
  intro l
  induction l with
  | nil =>
      intro q hq hcq
      simp only [List.foldl_nil, List.append_nil, List.length_nil, Nat.add_zero]
      rw [Nat.sub_eq_zero_of_le hq, List.drop_zero]
  | cons a l ih =>
      intro q hq hcq
      rw [List.foldl_cons]
      simp only [List.length_cons] at hcq ⊢
      by_cases hfull : cap ≤ q.length
      · have hql : q.length = cap := Nat.le_antisymm hq hfull
        have hstep : dequeAppend cap q a = q.drop 1 ++ [a] := by
          rw [dequeAppend, if_pos hfull]
        rw [hstep]
        have hlen : (q.drop 1 ++ [a]).length = cap := by
          rw [List.length_append, List.length_drop]
          simp only [List.length_singleton]
          omega
        rw [ih (q.drop 1 ++ [a]) (le_of_eq hlen) (by omega)]
        have h1 : (q.drop 1 ++ [a]) ++ l = (q ++ a :: l).drop 1 := by
          rw [List.drop_append_of_le_length (by omega), List.append_assoc,
            List.singleton_append]
        rw [h1, List.drop_drop]
        congr 1
        omega
      · have hlt : q.length < cap := Nat.lt_of_not_le hfull
        have hstep : dequeAppend cap q a = q ++ [a] := by
          rw [dequeAppend, if_neg hfull]
        rw [hstep]
        have hlen : (q ++ [a]).length = q.length + 1 := by
          simp [List.length_append]
        rw [ih (q ++ [a]) (by omega) (by omega), List.append_assoc,
          List.singleton_append]
        congr 1
        omega

/-- Componentwise description of the pair-of-deques fold performed by
repeated TimeManager.save_state pushes. -/
lemma foldl_pushEntry (cap : ℕ) :
    ∀ (es : List (PhysicsState × ℚ)) (q1 : List PhysicsState) (q2 : List ℚ),
      es.foldl (pushEntry cap) (q1, q2) =
        ((es.map Prod.fst).foldl (dequeAppend cap) q1,
         (es.map Prod.snd).foldl (dequeAppend cap) q2) := by
  intro es
  induction es with
  | nil => intro q1 q2; rfl
  | cons e es ih =>
      intro q1 q2
      rw [List.foldl_cons, List.map_cons, List.map_cons, List.foldl_cons, List.foldl_cons]
      exact ih _ _

/-- C7: pushing capacity + k snapshot/time pairs through the bounded history
deques leaves exactly capacity stored entries, the k oldest evicted FIFO with
insertion order preserved, the two parallel sequences staying equally long;
and TimeManager.save_state performs exactly this push on its two deques. -/
theorem c7_history_bound (cap k : ℕ) (entries : List (PhysicsState × ℚ))
    (hcap : 1 ≤ cap) (hlen : entries.length = cap + k) :
    (entries.foldl (pushEntry cap) ([], [])).1 = (entries.map Prod.fst).drop k ∧
    (entries.foldl (pushEntry cap) ([], [])).2 = (entries.map Prod.snd).drop k ∧
    (entries.foldl (pushEntry cap) ([], [])).1.length = cap ∧
    (entries.foldl (pushEntry cap) ([], [])).2.length = cap ∧
    (∀ s : TMState,
      s.save_state.history = dequeAppend s.capacity s.history s.ball.state ∧
      s.save_state.time_history = dequeAppend s.capacity s.time_history s.simulation_time) := by
  have hmap1 : (entries.map Prod.fst).length = cap + k := by
    rw [List.length_map, hlen]
  have hmap2 : (entries.map Prod.snd).length = cap + k := by
    rw [List.length_map, hlen]
  have h1 : (entries.map Prod.fst).foldl (dequeAppend cap) [] =
      (entries.map Prod.fst).drop k := by
    rw [dequeAppend_foldl_drop cap hcap _ [] (by simp) (by simp [hmap1])]
    simp [hmap1]
  have h2 : (entries.map Prod.snd).foldl (dequeAppend cap) [] =
      (entries.map Prod.snd).drop k := by
    rw [dequeAppend_foldl_drop cap hcap _ [] (by simp) (by simp [hmap2])]
    simp [hmap2]
  refine ⟨?_, ?_, ?_, ?_, fun s => ⟨rfl, rfl⟩⟩
  · rw [foldl_pushEntry]; exact h1
  · rw [foldl_pushEntry]; exact h2
  · rw [foldl_pushEntry]
    simp only [h1, List.length_drop, hmap1]
    omega
  · rw [foldl_pushEntry]
    simp only [h2, List.length_drop, hmap2]
    omega

/-- C7 (witness): three pushes into a capacity-2 buffer keep the last two
entries of each sequence. -/
theorem c7_history_bound_witness :
    ([(sampleSnapshot, (0:ℚ)), (sampleSnapshot, 1/144), (sampleSnapshot, 1/72)].foldl
        (pushEntry 2) ([], [])).1 =
      ([(sampleSnapshot, (0:ℚ)), (sampleSnapshot, 1/144), (sampleSnapshot, 1/72)].map
        Prod.fst).drop 1 ∧
    ([(sampleSnapshot, (0:ℚ)), (sampleSnapshot, 1/144), (sampleSnapshot, 1/72)].foldl
        (pushEntry 2) ([], [])).2 =
      ([(sampleSnapshot, (0:ℚ)), (sampleSnapshot, 1/144), (sampleSnapshot, 1/72)].map
        Prod.snd).drop 1 :=
  ⟨(c7_history_bound 2 1 _ (by norm_num) (by norm_num)).1,
   (c7_history_bound 2 1 _ (by norm_num) (by norm_num)).2.1⟩

/-- Timed tick preserves the time step. -/
lemma tickTime_dt (gy : ℚ) (s : TMState) : (TMState.tickTime gy s).dt = s.dt := rfl

/-- Auto-pause epilogue touches only is_playing. -/
lemma applyAutoPause_time (s : TMState) :
    s.applyAutoPause.simulation_time = s.simulation_time := by
  unfold TMState.applyAutoPause TMState.pause
  split <;> rfl

/-- Iterating the timed tick advances the clock by exactly one dt per tick. -/
lemma iterate_tickTime_time (gy : ℚ) :
    ∀ (k : ℕ) (s : TMState),
      ((TMState.tickTime gy)^[k] s).simulation_time = s.simulation_time + k * s.dt := by
  intro k
  induction k with
  | zero => intro s; simp
  | succ k ih =>
      intro s
      rw [Function.iterate_succ_apply, ih]
      show (TMState.tickTime gy s).simulation_time + k * (TMState.tickTime gy s).dt = _
      rw [tickTime_dt]
      show s.simulation_time + s.dt + k * s.dt = s.simulation_time + (k + 1 : ℕ) * s.dt
      push_cast
      ring

/-- C5: for positive seconds, step_forward_time performs exactly
floor(seconds / dt) fixed-dt ticks (the sub-dt remainder is dropped), so the
clock advances by exactly that many whole dt steps and never by a partial
one. -/
theorem c5_forward_time (s : TMState) (gy q : ℚ) (h : 0 < q) :
    TMState.step_forward_time q gy s =
      ((TMState.tickTime gy)^[(⌊q / s.dt⌋).toNat] s).applyAutoPause ∧
    (TMState.step_forward_time q gy s).simulation_time =
      s.simulation_time + ((⌊q / s.dt⌋).toNat : ℚ) * s.dt := by
  have h1 : TMState.step_forward_time q gy s =
      ((TMState.tickTime gy)^[(⌊q / s.dt⌋).toNat] s).applyAutoPause := by
    unfold TMState.step_forward_time
    rw [if_neg (not_le.mpr h)]
  refine ⟨h1, ?_⟩
  rw [h1, applyAutoPause_time, iterate_tickTime_time]

/-- C5 (witness): stepping the fresh manager forward by 3/144 of a second
performs three ticks and advances the clock to 3/144 of a second. -/
theorem c5_forward_time_witness :
    TMState.step_forward_time (1/48) 550 sampleTM =
      ((TMState.tickTime 550)^[(⌊(1/48 : ℚ) / sampleTM.dt⌋).toNat] sampleTM).applyAutoPause ∧
    (TMState.step_forward_time (1/48) 550 sampleTM).simulation_time =
      sampleTM.simulation_time + ((⌊(1/48 : ℚ) / sampleTM.dt⌋).toNat : ℚ) * sampleTM.dt :=
  c5_forward_time sampleTM 550 (1/48) (by norm_num)

/-- Membership after a bounded-deque append comes from the old deque or is
the new element. -/
lemma mem_dequeAppend {α : Type} {cap : ℕ} {q : List α} {a x : α}
    (hx : x ∈ dequeAppend cap q a) : x ∈ q ∨ x = a := by
  unfold dequeAppend at hx
  split at hx <;> rw [List.mem_append] at hx <;>
    rcases hx with hx | hx
  · exact Or.inl (List.drop_subset _ _ hx)
  · exact Or.inr (List.mem_singleton.mp hx)
  · exact Or.inl hx
  · exact Or.inr (List.mem_singleton.mp hx)

/-- Construction invariant is preserved by the timed tick. -/
lemma TMInv_tickTime (gy : ℚ) {s : TMState} (h : TMInv s) :
    TMInv (TMState.tickTime gy s) := by
  obtain ⟨hdt, ht, hh⟩ := h
  refine ⟨hdt, add_nonneg ht hdt, ?_⟩
  intro t htm
  rcases mem_dequeAppend htm with hmem | hmem
  · exact hh t hmem
  · rw [hmem]; exact ht

/-- Construction invariant is preserved by the frame tick. -/
lemma TMInv_tickFrames {s : TMState} (h : TMInv s) :
    TMInv (TMState.tickFrames s) := by
  obtain ⟨hdt, ht, hh⟩ := h
  refine ⟨hdt, add_nonneg ht hdt, ?_⟩
  intro t htm
  rcases mem_dequeAppend htm with hmem | hmem
  · exact hh t hmem
  · rw [hmem]; exact ht

/-- Invariant preservation lifts through function iteration. -/
lemma TMInv_iterate (f : TMState → TMState)
    (hf : ∀ s, TMInv s → TMInv (f s)) :
    ∀ (n : ℕ) (s : TMState), TMInv s → TMInv (f^[n] s) := by
  intro n
  induction n with
  | zero => intro s h; simpa using h
  | succ n ih =>
      intro s h
      rw [Function.iterate_succ_apply]
      exact ih _ (hf s h)

/-- Construction invariant is preserved by the auto-pause epilogue. -/
lemma TMInv_applyAutoPause {s : TMState} (h : TMInv s) :
    TMInv s.applyAutoPause := by
  unfold TMState.applyAutoPause TMState.pause
  split <;> exact h

/-- Construction invariant is preserved by reset. -/
lemma TMInv_reset {s : TMState} (h : TMInv s) : TMInv s.reset := by
  exact ⟨h.1, le_rfl, by simp [TMState.reset]⟩

/-- Construction invariant is preserved by one guarded pop. -/
lemma TMInv_popBoth {s : TMState} (h : TMInv s) : TMInv s.popBoth := by
  unfold TMState.popBoth
  split
  · exact ⟨h.1, h.2.1, fun t ht => h.2.2 t (List.dropLast_subset _ ht)⟩
  · exact h

/-- Construction invariant is preserved by step_forward_frames. -/
lemma TMInv_step_forward_frames {s : TMState} (n : ℤ) (h : TMInv s) :
    TMInv (TMState.step_forward_frames n s) := by
  unfold TMState.step_forward_frames
  split
  · exact h
  · exact TMInv_applyAutoPause
      (TMInv_iterate _ (fun _ => TMInv_tickFrames) _ _ h)

/-- Construction invariant is preserved by step_forward_time. -/
lemma TMInv_step_forward_time {s : TMState} (q gy : ℚ) (h : TMInv s) :
    TMInv (TMState.step_forward_time q gy s) := by
  unfold TMState.step_forward_time
  split
  · exact h
  · exact TMInv_applyAutoPause
      (TMInv_iterate _ (fun _ => TMInv_tickTime gy) _ _ h)

/-- Construction invariant is preserved by step_backward_frames. -/
lemma TMInv_step_backward_frames {s : TMState} (n : ℤ) (h : TMInv s) :
    TMInv (TMState.step_backward_frames n s) := by
  unfold TMState.step_backward_frames
  dsimp only
  split
  · exact h
  · have h1 : TMInv (TMState.popBoth^[min n.toNat s.history.length] s) :=
      TMInv_iterate _ (fun _ => TMInv_popBoth) _ _ h
    split
    · rename_i snap t heq1 heq2
      refine TMInv_applyAutoPause ⟨h1.1, ?_, h1.2.2⟩
      exact h1.2.2 t (List.mem_of_mem_getLast? heq2)
    · exact TMInv_applyAutoPause (TMInv_reset h1)

/-- Construction invariant is preserved by rewind_to_time. -/
lemma TMInv_rewind_to_time {s : TMState} (target : ℚ) (h : TMInv s) :
    TMInv (TMState.rewind_to_time target s) := by
  unfold TMState.rewind_to_time
  dsimp only
  split
  · exact TMInv_reset h
  · have h1 : TMInv (TMState.popBoth^[s.history.length -
        nearestIdx s.time_history target - 1] s) :=
      TMInv_iterate _ (fun _ => TMInv_popBoth) _ _ h
    split
    · rename_i snap t heq1 heq2
      exact ⟨h1.1, h1.2.2 t (List.mem_of_mem_getLast? heq2), h1.2.2⟩
    · exact h1

/-- Construction invariant is preserved by step_backward_time. -/
lemma TMInv_step_backward_time {s : TMState} (q : ℚ) (h : TMInv s) :
    TMInv (TMState.step_backward_time q s) := by
  unfold TMState.step_backward_time
  dsimp only
  split
  · exact h
  · split
    · exact TMInv_applyAutoPause (TMInv_reset h)
    · exact TMInv_applyAutoPause (TMInv_rewind_to_time _ h)

/-- Construction invariant is preserved by jump_to_time. -/
lemma TMInv_jump_to_time {s : TMState} (t gy : ℚ) (h : TMInv s) :
    TMInv (TMState.jump_to_time t gy s) := by
  unfold TMState.jump_to_time
  split
  · exact h
  · split
    · split
      · exact TMInv_applyAutoPause (TMInv_reset h)
      · exact TMInv_applyAutoPause (TMInv_rewind_to_time _ h)
    · split
      · exact TMInv_applyAutoPause (TMInv_step_forward_time _ _ h)
      · exact TMInv_applyAutoPause h

/-- Construction invariant is preserved by every TimeManager operation. -/
lemma TMInv_execOp (op : TMOp) {s : TMState} (h : TMInv s) :
    TMInv (execOp op s) := by
  cases op with
  | resetOp => exact TMInv_reset h
  | togglePlayPause => exact ⟨h.1, h.2.1, h.2.2⟩
  | stepForwardFrames n => exact TMInv_step_forward_frames n h
  | stepForwardTime q gy => exact TMInv_step_forward_time q gy h
  | stepBackwardFrames n => exact TMInv_step_backward_frames n h
  | stepBackwardTime q => exact TMInv_step_backward_time q h
  | rewindToTime t => exact TMInv_rewind_to_time t h
  | jumpToTime t gy => exact TMInv_jump_to_time t gy h

/-- Construction invariant is preserved by any sequence of operations. -/
lemma TMInv_execOps (ops : List TMOp) :
    ∀ {s : TMState}, TMInv s → TMInv (execOps ops s) := by
  induction ops with
  | nil => intro s h; exact h
  | cons op ops ih =>
      intro s h
      rw [execOps, List.foldl_cons]
      exact ih (TMInv_execOp op h)

/-- Frame tick preserves the time step. -/
lemma tickFrames_dt (s : TMState) : s.tickFrames.dt = s.dt := rfl

/-- Iterating the frame tick advances the clock by exactly one dt per tick. -/
lemma iterate_tickFrames_time :
    ∀ (k : ℕ) (s : TMState),
      (TMState.tickFrames^[k] s).simulation_time = s.simulation_time + k * s.dt := by
  intro k
  induction k with
  | zero => intro s; simp
  | succ k ih =>
      intro s
      rw [Function.iterate_succ_apply, ih]
      show s.tickFrames.simulation_time + k * s.tickFrames.dt = _
      rw [tickFrames_dt]
      show s.simulation_time + s.dt + k * s.dt = s.simulation_time + (k + 1 : ℕ) * s.dt
      push_cast
      ring

/-- C4 (amended): TimeManager.jump_to_time refuses a negative target as a
no-op (logging a warning) rather than clamping it to 0 (the archived
PhysicsSimulation variant is the one that clamps); every backward step that
would pass time 0 lands exactly on reset(); and after any sequence of
operations from a validly constructed state, simulationTime is never
negative. -/
theorem c4_amended (s : TMState) (t gy q : ℚ) (ops : List TMOp) :
    (t < 0 → TMState.jump_to_time t gy s = s) ∧
    (0 < q → s.simulation_time - q ≤ 0 →
      TMState.step_backward_time q s = s.reset) ∧
    (TMInv s → 0 ≤ (execOps ops s).simulation_time) := by
  refine ⟨?_, ?_, ?_⟩
  · intro ht
    unfold TMState.jump_to_time
    rw [if_pos ht]
  · intro hq hle
    unfold TMState.step_backward_time
    rw [if_neg (not_le.mpr hq)]
    dsimp only
    rw [max_eq_left hle, if_pos rfl]
    unfold TMState.applyAutoPause TMState.pause TMState.reset
    split <;> rfl
  · intro hinv
    exact (TMInv_execOps ops hinv).2.1

/-- C4 (witness): concrete no-op negative jump, a backward step landing on
reset, and a non-negative clock after a mixed operation sequence. -/
theorem c4_amended_witness :
    TMState.jump_to_time (-1) 550 sampleTM = sampleTM ∧
    TMState.step_backward_time 5 sampleTM = sampleTM.reset ∧
    0 ≤ (execOps [TMOp.stepForwardFrames 3, TMOp.stepBackwardTime 1,
        TMOp.jumpToTime 0 550] sampleTM).simulation_time :=
  ⟨(c4_amended sampleTM (-1) 550 5
      [TMOp.stepForwardFrames 3, TMOp.stepBackwardTime 1, TMOp.jumpToTime 0 550]).1
      (by norm_num),
   (c4_amended sampleTM (-1) 550 5
      [TMOp.stepForwardFrames 3, TMOp.stepBackwardTime 1, TMOp.jumpToTime 0 550]).2.1
      (by norm_num) (by norm_num [sampleTM]),
   (c4_amended sampleTM (-1) 550 5
      [TMOp.stepForwardFrames 3, TMOp.stepBackwardTime 1, TMOp.jumpToTime 0 550]).2.2
      ⟨by norm_num [sampleTM], by norm_num [sampleTM], by simp [sampleTM]⟩⟩

/-- C4 (counterexample): after two forward frames the clock reads 1/72; a
jump to the negative target -1 leaves the state completely unchanged (time
still 1/72), while an actual clamp to 0 (the behavior the claim asserts)
would have to agree with jump_to_time 0, which resets the clock to 0. -/
theorem c4_jump_counterexample :
    TMState.jump_to_time (-1) 550 sampleForwardTM = sampleForwardTM ∧
    sampleForwardTM.simulation_time = 1/72 ∧
    (TMState.jump_to_time 0 550 sampleForwardTM).simulation_time = 0 ∧
    (1/72 : ℚ) ≠ 0 := by
  have hT : sampleForwardTM.simulation_time = 1/72 := by
    have h0 : sampleForwardTM = (TMState.tickFrames^[(2:ℤ).toNat] sampleTM).applyAutoPause := by
      rw [sampleForwardTM]
      unfold TMState.step_forward_frames
      rw [if_neg (by norm_num)]
    rw [h0, applyAutoPause_time, iterate_tickFrames_time,
      show (2:ℤ).toNat = 2 from rfl]
    norm_num [sampleTM]
  refine ⟨?_, hT, ?_, by norm_num⟩
  · unfold TMState.jump_to_time
    rw [if_pos (by norm_num)]
  · have h1 : TMState.jump_to_time 0 550 sampleForwardTM =
        sampleForwardTM.reset.applyAutoPause := by
      unfold TMState.jump_to_time
      rw [if_neg (by norm_num), if_pos (by rw [hT]; norm_num), if_pos rfl]
    rw [h1, applyAutoPause_time]
    rfl

/-- Screen-coordinate collision resolution never leaves the ball below the
ground line. -/
lemma checkScreen_below (b : UBall) (g : ℚ) :
    (b.checkScreen g).y + (b.checkScreen g).radius ≤ g := by
  unfold UBall.checkScreen
  split
  · dsimp only
    linarith
  · rename_i hc
    linarith [not_le.mp hc]

/-- Physics-coordinate collision resolution never leaves the ball below the
ground at y = 0. -/
lemma checkPhysics_above (b : UBall) :
    b.checkPhysics.radius ≤ b.checkPhysics.y := by
  unfold UBall.checkPhysics
  split
  · dsimp only
    linarith
  · rename_i hc
    linarith [not_le.mp hc]

/-- One screen tick ends at or above the ground. -/
lemma tickScreen_below (dt g : ℚ) (b : UBall) :
    (UBall.tickScreen dt g b).y + (UBall.tickScreen dt g b).radius ≤ g := by
  unfold UBall.tickScreen
  exact checkScreen_below _ _

/-- One physics tick ends at or above the ground. -/
lemma tickPhysics_above (dt : ℚ) (b : UBall) :
    (UBall.tickPhysics dt b).radius ≤ (UBall.tickPhysics dt b).y := by
  unfold UBall.tickPhysics
  exact checkPhysics_above _

/-- C8 (amended): after at least one tick the ball never rests below the
ground in either coordinate system, so whenever the ground test holds (in
particular together with velocityY = 0) the ball lies exactly on the
ground; velocityY = 0 alone does not imply ground contact, because the
velocity can vanish exactly at a bounce apex in mid-air. -/
theorem c8_ground_contact_amended (b : UBall) (dt g : ℚ) (n : ℕ) (h : 1 ≤ n) :
    (((UBall.tickScreen dt g)^[n] b).y + ((UBall.tickScreen dt g)^[n] b).radius ≤ g ∧
      (((UBall.tickScreen dt g)^[n] b).velocity_y = 0 →
        ((UBall.tickScreen dt g)^[n] b).y + ((UBall.tickScreen dt g)^[n] b).radius ≥ g →
        ((UBall.tickScreen dt g)^[n] b).y + ((UBall.tickScreen dt g)^[n] b).radius = g)) ∧
    (((UBall.tickPhysics dt)^[n] b).radius ≤ ((UBall.tickPhysics dt)^[n] b).y ∧
      (((UBall.tickPhysics dt)^[n] b).velocity_y = 0 →
        ((UBall.tickPhysics dt)^[n] b).y ≤ ((UBall.tickPhysics dt)^[n] b).radius →
        ((UBall.tickPhysics dt)^[n] b).y = ((UBall.tickPhysics dt)^[n] b).radius)) := by
  obtain ⟨m, rfl⟩ : ∃ m, n = m + 1 := ⟨n - 1, by omega⟩
  rw [Function.iterate_succ_apply', Function.iterate_succ_apply']
  constructor
  · refine ⟨tickScreen_below _ _ _, fun _ hge => le_antisymm (tickScreen_below _ _ _) hge⟩
  · refine ⟨tickPhysics_above _ _, fun _ hle => le_antisymm hle (tickPhysics_above _ _)⟩

/-- C8 (witness): one tick from the sample drop in both coordinate systems. -/
theorem c8_ground_contact_witness :
    (((UBall.tickScreen (1/144) 500)^[1] (engineBallInit 400 400)).y +
        ((UBall.tickScreen (1/144) 500)^[1] (engineBallInit 400 400)).radius ≤ 500 ∧
      (((UBall.tickScreen (1/144) 500)^[1] (engineBallInit 400 400)).velocity_y = 0 →
        ((UBall.tickScreen (1/144) 500)^[1] (engineBallInit 400 400)).y +
          ((UBall.tickScreen (1/144) 500)^[1] (engineBallInit 400 400)).radius ≥ 500 →
        ((UBall.tickScreen (1/144) 500)^[1] (engineBallInit 400 400)).y +
          ((UBall.tickScreen (1/144) 500)^[1] (engineBallInit 400 400)).radius = 500)) ∧
    (((UBall.tickPhysics (1/144))^[1] (engineBallInit 400 400)).radius ≤
        ((UBall.tickPhysics (1/144))^[1] (engineBallInit 400 400)).y ∧
      (((UBall.tickPhysics (1/144))^[1] (engineBallInit 400 400)).velocity_y = 0 →
        ((UBall.tickPhysics (1/144))^[1] (engineBallInit 400 400)).y ≤
          ((UBall.tickPhysics (1/144))^[1] (engineBallInit 400 400)).radius →
        ((UBall.tickPhysics (1/144))^[1] (engineBallInit 400 400)).y =
          ((UBall.tickPhysics (1/144))^[1] (engineBallInit 400 400)).radius)) :=
  c8_ground_contact_amended (engineBallInit 400 400) (1/144) 500 1 (by norm_num)

/-- Apex counterexample start state: a ball at rest at y = 476 over the
ground line 500 lands on tick 5 with impact speed 625/3 and returns to a
mid-air apex with exactly zero velocity on tick 9. -/
def apexStart : UBall :=
  { x := 400, y := 476, velocity_y := 0, acceleration_y := 0,
    radius := 20, mass := 1, gravity := GRAVITY, bounce_damping := BOUNCE_DAMPING,
    min_bounce_velocity := MIN_BOUNCE_VELOCITY }

/-- Helper shape for the intermediate states of the apex trace. -/
def apexAt (y v : ℚ) : UBall :=
  { x := 400, y := y, velocity_y := v, acceleration_y := 6000,
    radius := 20, mass := 1, gravity := 6000, bounce_damping := 4/5,
    min_bounce_velocity := 50 }

/-- C8 (counterexample): after 9 ticks from apexStart the velocity is exactly
zero while the ball hangs at y = 34435/72, with y + radius = 35875/72 ≠ 500:
zero velocity does not imply ground contact. -/
theorem c8_energy_floor_counterexample :
    ((UBall.tickScreen (1/144) 500)^[9] apexStart).velocity_y = 0 ∧
    ((UBall.tickScreen (1/144) 500)^[9] apexStart).y +
      ((UBall.tickScreen (1/144) 500)^[9] apexStart).radius ≠ 500 := by
  have t1 : UBall.tickScreen (1/144) 500 apexStart = apexAt (205757/432) (125/3) := by
    norm_num [UBall.tickScreen, UBall.updateScreen, UBall.checkScreen, apexStart, apexAt,
      GRAVITY, BOUNCE_DAMPING, MIN_BOUNCE_VELOCITY]
  have t2 : UBall.tickScreen (1/144) 500 (apexAt (205757/432) (125/3)) =
      apexAt (68669/144) (250/3) := by
    norm_num [UBall.tickScreen, UBall.updateScreen, UBall.checkScreen, apexAt]
  have t3 : UBall.tickScreen (1/144) 500 (apexAt (68669/144) (250/3)) =
      apexAt (34397/72) 125 := by
    norm_num [UBall.tickScreen, UBall.updateScreen, UBall.checkScreen, apexAt]
  have t4 : UBall.tickScreen (1/144) 500 (apexAt (34397/72) 125) =
      apexAt (103441/216) (500/3) := by
    norm_num [UBall.tickScreen, UBall.updateScreen, UBall.checkScreen, apexAt]
  have t5 : UBall.tickScreen (1/144) 500 (apexAt (103441/216) (500/3)) =
      apexAt 480 (-500/3) := by
    norm_num [UBall.tickScreen, UBall.updateScreen, UBall.checkScreen, apexAt,
      abs_of_nonneg, abs_of_nonpos]
  have t6 : UBall.tickScreen (1/144) 500 (apexAt 480 (-500/3)) =
      apexAt (68995/144) (-125) := by
    norm_num [UBall.tickScreen, UBall.updateScreen, UBall.checkScreen, apexAt]
  have t7 : UBall.tickScreen (1/144) 500 (apexAt (68995/144) (-125)) =
      apexAt (206735/432) (-250/3) := by
    norm_num [UBall.tickScreen, UBall.updateScreen, UBall.checkScreen, apexAt]
  have t8 : UBall.tickScreen (1/144) 500 (apexAt (206735/432) (-250/3)) =
      apexAt (34435/72) (-125/3) := by
    norm_num [UBall.tickScreen, UBall.updateScreen, UBall.checkScreen, apexAt]
  have t9 : UBall.tickScreen (1/144) 500 (apexAt (34435/72) (-125/3)) =
      apexAt (34435/72) 0 := by
    norm_num [UBall.tickScreen, UBall.updateScreen, UBall.checkScreen, apexAt]
  have h9 : (UBall.tickScreen (1/144) 500)^[9] apexStart = apexAt (34435/72) 0 := by
    rw [show (9:ℕ) = 8+1 from rfl, Function.iterate_succ_apply, t1,
        show (8:ℕ) = 7+1 from rfl, Function.iterate_succ_apply, t2,
        show (7:ℕ) = 6+1 from rfl, Function.iterate_succ_apply, t3,
        show (6:ℕ) = 5+1 from rfl, Function.iterate_succ_apply, t4,
        show (5:ℕ) = 4+1 from rfl, Function.iterate_succ_apply, t5,
        show (4:ℕ) = 3+1 from rfl, Function.iterate_succ_apply, t6,
        show (3:ℕ) = 2+1 from rfl, Function.iterate_succ_apply, t7,
        show (2:ℕ) = 1+1 from rfl, Function.iterate_succ_apply, t8,
        Function.iterate_one, t9]
  rw [h9]
  norm_num [apexAt]

attribute [ext] UBall

/-- Integration step commutes with the screen-to-physics coordinate
translation. -/
lemma update_coords_equiv (b : UBall) (dt g : ℚ) :
    (b.toPhysicsCoords g).updatePhysics dt = (b.updateScreen dt g).toPhysicsCoords g := by
  unfold UBall.toPhysicsCoords UBall.updatePhysics UBall.updateScreen
  dsimp only
  have hc : (g - b.y ≤ b.radius) ↔ (b.y + b.radius ≥ g) :=
    ⟨fun h => by linarith, fun h => by linarith⟩
  simp only [neg_eq_zero, hc]
  by_cases hrest : b.velocity_y = 0 ∧ b.y + b.radius ≥ g
  · simp only [if_pos hrest]
    all_goals (ext <;> dsimp only <;> try ring)
  · simp only [if_neg hrest]
    all_goals (ext <;> dsimp only <;> try ring)

/-- Collision resolution commutes with the screen-to-physics coordinate
translation. -/
lemma check_coords_equiv (b : UBall) (g : ℚ) :
    (b.toPhysicsCoords g).checkPhysics = (b.checkScreen g).toPhysicsCoords g := by
  unfold UBall.toPhysicsCoords UBall.checkPhysics UBall.checkScreen
  dsimp only
  have hc : (g - b.y ≤ b.radius) ↔ (b.y + b.radius ≥ g) :=
    ⟨fun h => by linarith, fun h => by linarith⟩
  simp only [hc, neg_neg, neg_mul, abs_neg]
  by_cases hcol : b.y + b.radius ≥ g
  · simp only [if_pos hcol]
    by_cases hsnap : |b.velocity_y * b.bounce_damping| < b.min_bounce_velocity
    · simp only [if_pos hsnap]
      all_goals (ext <;> dsimp only <;> try ring)
    · simp only [if_neg hsnap]
      all_goals (ext <;> dsimp only <;> try ring)
  · simp only [if_neg hcol]

/-- One tick commutes with the screen-to-physics coordinate translation. -/
lemma tick_coords_equiv (b : UBall) (dt g : ℚ) :
    UBall.tickPhysics dt (b.toPhysicsCoords g) = (UBall.tickScreen dt g b).toPhysicsCoords g := by
  unfold UBall.tickPhysics UBall.tickScreen
  rw [update_coords_equiv, check_coords_equiv]

/-- Any number of ticks commutes with the coordinate translation. -/
lemma iterate_coords_equiv (dt g : ℚ) :
    ∀ (n : ℕ) (b : UBall),
      (UBall.tickPhysics dt)^[n] (b.toPhysicsCoords g) =
        ((UBall.tickScreen dt g)^[n] b).toPhysicsCoords g := by
  intro n
  induction n with
  | zero => intro b; simp
  | succ n ih =>
      intro b
      rw [Function.iterate_succ_apply, tick_coords_equiv, ih,
        Function.iterate_succ_apply]

/-- Screen-coordinate ball dropped from rest at y = 20 with ground 500 and
radius 20: its center sits 480 units above the ground line, matching the
spec's height-480 physics drop. -/
def dropBall : UBall :=
  { x := 400, y := 20, velocity_y := 0, acceleration_y := 0,
    radius := 20, mass := 1, gravity := GRAVITY, bounce_damping := BOUNCE_DAMPING,
    min_bounce_velocity := MIN_BOUNCE_VELOCITY }

/-- C9: the two coordinate variants behave symmetrically: translating a
screen drop (ground_y, gravity +g) into the physics variant (ground 0,
gravity -g, mirrored velocity) and running any number of ticks gives
mirrored velocities, hence equal speeds at every step - in particular equal
impact speeds - and mirrored heights; the screen drop from y = 20 with
groundY = 500 and radius 20 corresponds exactly to the physics drop from
height 480. -/
theorem c9_coordinate_equivalence (b : UBall) (dt g : ℚ) (n : ℕ) :
    ((UBall.tickPhysics dt)^[n] (b.toPhysicsCoords g)).velocity_y =
      -(((UBall.tickScreen dt g)^[n] b).velocity_y) ∧
    |((UBall.tickPhysics dt)^[n] (b.toPhysicsCoords g)).velocity_y| =
      |((UBall.tickScreen dt g)^[n] b).velocity_y| ∧
    ((UBall.tickPhysics dt)^[n] (b.toPhysicsCoords g)).y =
      g - ((UBall.tickScreen dt g)^[n] b).y ∧
    (dropBall.toPhysicsCoords 500).y = 480 := by
  rw [iterate_coords_equiv]
  refine ⟨rfl, ?_, rfl, ?_⟩
  · show |-(((UBall.tickScreen dt g)^[n] b).velocity_y)| = _
    rw [abs_neg]
  · norm_num [dropBall, UBall.toPhysicsCoords]

/-- Element read at the junction point of an append. -/
lemma getD_append_middle (pre rest : List ℚ) (t : ℚ) :
    ((pre ++ [t]) ++ rest).getD pre.length 0 = t := by
  rw [List.getD_append _ _ _ _ (by simp), List.getD_append_right _ _ _ _ (le_refl _)]
  simp

/-- Invariant of the linear scan of rewind_to_time: starting from a best
candidate over the processed prefix, the scan returns the index of a global
minimizer of |time - target|, and every index before the returned one has a
strictly larger distance (ties go to the first minimizer). -/
lemma scanNearest_invariant (target : ℚ) :
    ∀ (l pre : List ℚ) (bi : ℕ) (bd : ℚ),
      bd = |(pre ++ l).getD bi 0 - target| →
      bi < (pre ++ l).length →
      (∀ j, j < bi → bd < |(pre ++ l).getD j 0 - target|) →
      (∀ j, bi ≤ j → j < pre.length → bd ≤ |(pre ++ l).getD j 0 - target|) →
      (scanNearest target l pre.length (bi, bd)).1 < (pre ++ l).length ∧
      (scanNearest target l pre.length (bi, bd)).2 =
        |(pre ++ l).getD (scanNearest target l pre.length (bi, bd)).1 0 - target| ∧
      (∀ j, j < (pre ++ l).length →
        (scanNearest target l pre.length (bi, bd)).2 ≤ |(pre ++ l).getD j 0 - target|) ∧
      (∀ j, j < (scanNearest target l pre.length (bi, bd)).1 →
        (scanNearest target l pre.length (bi, bd)).2 < |(pre ++ l).getD j 0 - target|) := by
  intro l
  induction l with
  | nil =>
      intro pre bi bd h1 h2 h3 h4
      simp only [scanNearest, List.append_nil] at *
      refine ⟨h2, h1, ?_, h3⟩
      intro j hj
      rcases lt_or_ge j bi with hlt | hge
      · exact le_of_lt (h3 j hlt)
      · exact h4 j hge hj
  | cons t rest ih =>
      intro pre bi bd h1 h2 h3 h4
      have hT : pre ++ t :: rest = (pre ++ [t]) ++ rest := by simp
      have hmid : ((pre ++ [t]) ++ rest).getD pre.length 0 = t :=
        getD_append_middle pre rest t
      rw [hT] at h1 h2 h3 h4 ⊢
      show (scanNearest target (t :: rest) pre.length (bi, bd)).1 <
          ((pre ++ [t]) ++ rest).length ∧ _
      rw [scanNearest]
      split
      · rename_i hlt
        have hlen : (pre ++ [t]).length = pre.length + 1 := by simp
        have hres := ih (pre ++ [t]) pre.length (|t - target|)
          (by rw [hmid]) (by simp only [List.length_append, List.length_cons,
            List.length_singleton]; omega)
          (by
            intro j hj
            rcases lt_or_ge j bi with hjb | hjb
            · exact lt_trans hlt (h3 j hjb)
            · exact lt_of_lt_of_le hlt (h4 j hjb hj))
          (by
            intro j hj1 hj2
            rw [hlen] at hj2
            have hjeq : j = pre.length := by omega
            rw [hjeq, hmid])
        rw [hlen] at hres
        exact hres
      · rename_i hnlt
        have hlen : (pre ++ [t]).length = pre.length + 1 := by simp
        have hres := ih (pre ++ [t]) bi bd h1 h2 h3
          (by
            intro j hj1 hj2
            rw [hlen] at hj2
            rcases lt_or_ge j pre.length with hjp | hjp
            · exact h4 j hj1 hjp
            · have hjeq : j = pre.length := by omega
              rw [hjeq, hmid]
              exact not_lt.mp hnlt)
        rw [hlen] at hres
        exact hres

/-- C6: on a non-empty history the nearest-time lookup returns an in-range
index minimizing |time - target|, updating its candidate only on strictly
smaller distances so that ties resolve to the first (oldest) entry; in
particular with stored times [1/2, 1] and target 3/4 it returns index 0. -/
theorem c6_nearest_lookup (times : List ℚ) (target : ℚ) (h : times ≠ []) :
    nearestIdx times target < times.length ∧
    (∀ j, j < times.length →
      |times.getD (nearestIdx times target) 0 - target| ≤ |times.getD j 0 - target|) ∧
    (∀ j, j < nearestIdx times target →
      |times.getD (nearestIdx times target) 0 - target| < |times.getD j 0 - target|) ∧
    nearestIdx [(1:ℚ)/2, 1] (3/4) = 0 := by
  obtain ⟨t0, rest, rfl⟩ := List.exists_cons_of_ne_nil h
  have hres := scanNearest_invariant target (t0 :: rest) [] 0 (|t0 - target|)
    (by simp) (by simp) (by omega) (by simp)
  simp only [List.nil_append, List.length_nil] at hres
  have hdef : nearestIdx (t0 :: rest) target =
      (scanNearest target (t0 :: rest) 0 (0, |t0 - target|)).1 := rfl
  obtain ⟨ha, hb, hc, hd⟩ := hres
  refine ⟨by rw [hdef]; exact ha, ?_, ?_, ?_⟩
  · intro j hj
    rw [hdef, ← hb]
    exact hc j hj
  · intro j hj
    rw [hdef] at hj ⊢
    rw [← hb]
    exact hd j hj
  · have e1 : |(1:ℚ) - 3/4| = 1/4 := by
      rw [abs_of_nonneg] <;> norm_num
    have e2 : |(1:ℚ)/2 - 3/4| = 1/4 := by
      rw [abs_of_nonpos] <;> norm_num
    norm_num [nearestIdx, scanNearest, e1, e2]

/-- C6 (witness): concrete instantiation at stored times [1/2, 1]. -/
theorem c6_nearest_lookup_witness :
    nearestIdx [(1:ℚ)/2, 1] (3/4) < ([(1:ℚ)/2, 1]).length ∧
    (∀ j, j < ([(1:ℚ)/2, 1]).length →
      |([(1:ℚ)/2, 1]).getD (nearestIdx [(1:ℚ)/2, 1] (3/4)) 0 - 3/4| ≤
        |([(1:ℚ)/2, 1]).getD j 0 - 3/4|) ∧
    (∀ j, j < nearestIdx [(1:ℚ)/2, 1] (3/4) →
      |([(1:ℚ)/2, 1]).getD (nearestIdx [(1:ℚ)/2, 1] (3/4)) 0 - 3/4| <
        |([(1:ℚ)/2, 1]).getD j 0 - 3/4|) ∧
    nearestIdx [(1:ℚ)/2, 1] (3/4) = 0 :=
  c6_nearest_lookup [(1:ℚ)/2, 1] (3/4) (by simp)

/-- Auto-pause epilogue touches only is_playing: history unchanged. -/
lemma applyAutoPause_history (s : TMState) : s.applyAutoPause.history = s.history := by
  unfold TMState.applyAutoPause TMState.pause
  split <;> rfl

/-- Auto-pause epilogue touches only is_playing: time history unchanged. -/
lemma applyAutoPause_time_history (s : TMState) :
    s.applyAutoPause.time_history = s.time_history := by
  unfold TMState.applyAutoPause TMState.pause
  split <;> rfl

/-- Auto-pause epilogue touches only is_playing: ball unchanged. -/
lemma applyAutoPause_ball (s : TMState) : s.applyAutoPause.ball = s.ball := by
  unfold TMState.applyAutoPause TMState.pause
  split <;> rfl

/-- Below capacity, the frame tick appends the pre-tick snapshot. -/
lemma tickFrames_history_append {s : TMState} (h : s.history.length < s.capacity) :
    s.tickFrames.history = s.history ++ [s.ball.state] := by
  show dequeAppend s.capacity s.history s.ball.state = _
  rw [dequeAppend, if_neg (not_le.mpr h)]

/-- Below capacity, the frame tick appends the pre-tick clock value. -/
lemma tickFrames_timeHistory_append {s : TMState} (h : s.time_history.length < s.capacity) :
    s.tickFrames.time_history = s.time_history ++ [s.simulation_time] := by
  show dequeAppend s.capacity s.time_history s.simulation_time = _
  rw [dequeAppend, if_neg (not_le.mpr h)]

/-- Running n frame ticks below capacity appends exactly n entries to each
history deque. -/
lemma iterate_tickFrames_history :
    ∀ (n : ℕ) (s : TMState),
      s.history.length + n ≤ s.capacity →
      s.time_history.length + n ≤ s.capacity →
      ∃ (L : List PhysicsState) (M : List ℚ),
        L.length = n ∧ M.length = n ∧
        (TMState.tickFrames^[n] s).history = s.history ++ L ∧
        (TMState.tickFrames^[n] s).time_history = s.time_history ++ M := by
  intro n
  induction n with
  | zero =>
      intro s _ _
      exact ⟨[], [], rfl, rfl, by simp, by simp⟩
  | succ n ih =>
      intro s h1 h2
      have hh : s.history.length < s.capacity := by omega
      have ht : s.time_history.length < s.capacity := by omega
      have hcap : s.tickFrames.capacity = s.capacity := rfl
      have e1 : s.tickFrames.history = s.history ++ [s.ball.state] :=
        tickFrames_history_append hh
      have e2 : s.tickFrames.time_history = s.time_history ++ [s.simulation_time] :=
        tickFrames_timeHistory_append ht
      obtain ⟨L, M, hL, hM, hist, thist⟩ := ih s.tickFrames
        (by rw [e1, hcap]; simp only [List.length_append, List.length_singleton]; omega)
        (by rw [e2, hcap]; simp only [List.length_append, List.length_singleton]; omega)
      refine ⟨s.ball.state :: L, s.simulation_time :: M,
        by simp [hL], by simp [hM], ?_, ?_⟩
      · rw [Function.iterate_succ_apply, hist, e1]
        simp
      · rw [Function.iterate_succ_apply, thist, e2]
        simp

/-- Popping n times from deques that extend (A, B) by n entries recovers
exactly (A, B), provided A and B are non-empty. -/
lemma iterate_popBoth_concat :
    ∀ (n : ℕ) (s : TMState) (A : List PhysicsState) (B : List ℚ)
      (L : List PhysicsState) (M : List ℚ),
      s.history = A ++ L → s.time_history = B ++ M →
      L.length = n → M.length = n → A ≠ [] → B ≠ [] →
      TMState.popBoth^[n] s = { s with history := A, time_history := B } := by
  intro n
  induction n with
  | zero =>
      intro s A B L M hA hB hL hM _ _
      rw [List.length_eq_zero] at hL hM
      subst hL hM
      simp only [List.append_nil] at hA hB
      rw [Function.iterate_zero_apply, ← hA, ← hB]
  | succ n ih =>
      intro s A B L M hA hB hL hM hAne hBne
      rcases List.eq_nil_or_concat' L with rfl | ⟨L', x, rfl⟩
      · simp at hL
      rcases List.eq_nil_or_concat' M with rfl | ⟨M', y, rfl⟩
      · simp at hM
      have hne1 : s.history ≠ [] := by
        rw [hA]
        intro hcontra
        exact hAne (List.append_eq_nil.mp hcontra).1
      have hne2 : s.time_history ≠ [] := by
        rw [hB]
        intro hcontra
        exact hBne (List.append_eq_nil.mp hcontra).1
      have hpop : s.popBoth = { s with history := A ++ L', time_history := B ++ M' } := by
        unfold TMState.popBoth
        rw [if_pos ⟨hne1, hne2⟩, hA, hB]
        simp only [← List.append_assoc, List.dropLast_concat]
      rw [Function.iterate_succ_apply, hpop]
      exact ih _ A B L' M' rfl rfl
        (by simp only [List.length_append, List.length_singleton] at hL; omega)
        (by simp only [List.length_append, List.length_singleton] at hM; omega)
        hAne hBne

/-- C2 (amended): with non-empty lockstep history and no eviction,
stepForwardFrames(n) followed by stepBackwardFrames(n) restores the Body
state and simulationTime to the values stored in the history tail entry as
it was before the forward call - the snapshot taken one tick before the
pre-call state - not to the pre-call Body state and clock themselves. -/
theorem c2_roundtrip_amended (s : TMState) (n : ℕ)
    (h1 : 1 ≤ n) (h2 : n ≤ s.history.length)
    (h3 : s.time_history.length = s.history.length)
    (h4 : s.history.length + n ≤ s.capacity) :
    ∃ snap t, s.history.getLast? = some snap ∧ s.time_history.getLast? = some t ∧
      (TMState.step_backward_frames (n:ℤ)
        (TMState.step_forward_frames (n:ℤ) s)).ball.state = snap ∧
      (TMState.step_backward_frames (n:ℤ)
        (TMState.step_forward_frames (n:ℤ) s)).simulation_time = t := by
  have hne : s.history ≠ [] := by
    intro hnil
    rw [hnil] at h2
    simp at h2
    omega
  have hne2 : s.time_history ≠ [] := by
    intro hnil
    rw [hnil] at h3
    simp at h3
    omega
  rcases List.eq_nil_or_concat' s.history with heq | ⟨A', snap, hAs⟩
  · exact absurd heq hne
  rcases List.eq_nil_or_concat' s.time_history with heq | ⟨B', t, hBt⟩
  · exact absurd heq hne2
  have hg1 : s.history.getLast? = some snap := by
    rw [hAs]
    exact List.getLast?_concat _
  have hg2 : s.time_history.getLast? = some t := by
    rw [hBt]
    exact List.getLast?_concat _
  have hfwd : TMState.step_forward_frames (n:ℤ) s =
      (TMState.tickFrames^[n] s).applyAutoPause := by
    unfold TMState.step_forward_frames
    rw [if_neg (by omega), show ((n:ℤ)).toNat = n from by omega]
  obtain ⟨L, M, hL, hM, hist, thist⟩ := iterate_tickFrames_history n s h4 (by omega)
  have hsfh : (TMState.step_forward_frames (n:ℤ) s).history = s.history ++ L := by
    rw [hfwd, applyAutoPause_history, hist]
  have hsft : (TMState.step_forward_frames (n:ℤ) s).time_history =
      s.time_history ++ M := by
    rw [hfwd, applyAutoPause_time_history, thist]
  have hguard : ¬((n:ℤ) ≤ 0) := by omega
  have hmin : min ((n:ℤ)).toNat
      (TMState.step_forward_frames (n:ℤ) s).history.length = n := by
    rw [show ((n:ℤ)).toNat = n from by omega, hsfh, List.length_append, hL]
    omega
  have hpops : TMState.popBoth^[n] (TMState.step_forward_frames (n:ℤ) s) =
      { TMState.step_forward_frames (n:ℤ) s with
          history := s.history, time_history := s.time_history } :=
    iterate_popBoth_concat n _ s.history s.time_history L M hsfh hsft hL hM hne hne2
  have hback : TMState.step_backward_frames (n:ℤ)
        (TMState.step_forward_frames (n:ℤ) s) =
      ({ { TMState.step_forward_frames (n:ℤ) s with
            history := s.history, time_history := s.time_history } with
          ball := (TMState.step_forward_frames (n:ℤ) s).ball.set_state snap,
          simulation_time := t } : TMState).applyAutoPause := by
    unfold TMState.step_backward_frames
    rw [if_neg hguard]
    dsimp only
    rw [hmin, hpops]
    dsimp only
    rw [hg1, hg2]
  refine ⟨snap, t, hg1, hg2, ?_, ?_⟩
  · rw [hback, applyAutoPause_ball]
    rfl
  · rw [hback, applyAutoPause_time]

/-- Snapshot at a given height with all other components zero. -/
def snapAt (y : ℚ) : PhysicsState :=
  { x := 400, y := y, velocity_x := 0, velocity_y := 0,
    acceleration_x := 0, acceleration_y := 0 }

/-- Ball (physics.py) whose state is snapAt y, default constants. -/
def ballAt (y : ℚ) : Ball :=
  { state := snapAt y, radius := 20, mass := 1,
    gravity := GRAVITY, bounce_damping := BOUNCE_DAMPING }

/-- Concrete state for the round-trip claim: two history entries at times 0
and 1/144, clock at 1/72, ball state distinct from every stored snapshot. -/
def roundtripStart : TMState :=
  { dt := 1/144, capacity := 500, simulation_time := 1/72, is_playing := false,
    auto_pause_after_step := false,
    history := [snapAt 100, snapAt 101],
    time_history := [0, 1/144],
    ball := ballAt 102 }

/-- State reached from roundtripStart by one forward frame: the pre-tick
snapshot and clock were pushed, and the frame tick's ground bug clamped the
ball from 102 onto its own height minus the radius. -/
def roundtripMid : TMState :=
  { dt := 1/144, capacity := 500, simulation_time := 1/48, is_playing := false,
    auto_pause_after_step := false,
    history := [snapAt 100, snapAt 101, snapAt 102],
    time_history := [0, 1/144, 1/72],
    ball := ballAt 82 }

/-- C2 (witness): the amended round trip at the concrete two-entry state. -/
theorem c2_roundtrip_witness :
    ∃ snap t, roundtripStart.history.getLast? = some snap ∧
      roundtripStart.time_history.getLast? = some t ∧
      (TMState.step_backward_frames ((1:ℕ):ℤ)
        (TMState.step_forward_frames ((1:ℕ):ℤ) roundtripStart)).ball.state = snap ∧
      (TMState.step_backward_frames ((1:ℕ):ℤ)
        (TMState.step_forward_frames ((1:ℕ):ℤ) roundtripStart)).simulation_time = t :=
  c2_roundtrip_amended roundtripStart 1 (by norm_num)
    (by norm_num [roundtripStart]) (by norm_num [roundtripStart])
    (by norm_num [roundtripStart])

/-- C2 (counterexample): at roundtripStart (which holds at least one history
entry), stepForwardFrames(1) then stepBackwardFrames(1) leaves the clock at
1/144, not at its pre-step value 1/72: the round trip lands one frame
earlier than the claim asserts. -/
theorem c2_roundtrip_counterexample :
    1 ≤ roundtripStart.history.length ∧
    roundtripStart.simulation_time = 1/72 ∧
    (TMState.step_backward_frames 1
      (TMState.step_forward_frames 1 roundtripStart)).simulation_time = 1/144 ∧
    ((1:ℚ)/144) ≠ 1/72 := by
  refine ⟨by norm_num [roundtripStart], rfl, ?_, by norm_num⟩
  have h1 : TMState.step_forward_frames 1 roundtripStart = roundtripMid := by
    norm_num [TMState.step_forward_frames, TMState.tickFrames, TMState.save_state,
      TMState.step_time, TMState.applyAutoPause, Ball.update, Ball.baseUpdate,
      Ball.check_ground_collision, dequeAppend, roundtripStart, roundtripMid,
      snapAt, ballAt, GRAVITY, BOUNCE_DAMPING, MIN_BOUNCE_VELOCITY,
      HISTORY_MAX_FRAMES]
  have hpops : TMState.popBoth^[1] roundtripMid =
      { roundtripMid with
        history := [snapAt 100, snapAt 101],
        time_history := [0, 1/144] } :=
    iterate_popBoth_concat 1 roundtripMid [snapAt 100, snapAt 101] [0, 1/144]
      [snapAt 102] [1/72] rfl rfl rfl rfl (by simp) (by simp)
  rw [h1]
  unfold TMState.step_backward_frames
  rw [if_neg (by norm_num)]
  dsimp only
  have hmin : min (Int.toNat 1) roundtripMid.history.length = 1 := rfl
  rw [hmin, hpops]
  rfl
